import Mathlib

/-!
Verification development for the RAG question-answering service.

The definitions below are shallow embeddings of the program's services:

* `Routing` — `chat/schemas/routing.py` (`RoutingResult._validate_consistency`)
  and `chat/services/routing_service.py` (`RoutingService.route`,
  `RoutingService._post_validate`);
* `Chat` — `chat/services/rag_chat.py` (`RAGChatService.chat`,
  `RAGChatService._search_with_fallback`);
* `Faiss` — `documents/search_backends/faiss_backend.py`
  (`FaissSearchBackend.index_chunks`, `rebuild_index`, `search`);
* `Extractor` — `documents/services/content_extractor.py`
  (`PDFContentExtractor._choose_better_result`);
* `Ingestion` — `documents/services/document_ingestion.py`
  (`DocumentIngestionService.ingest_document`).

Python machine floats on the observed branch conditions (score thresholds,
the 10% length comparison, replacement-character proportions) are embedded
as exact rationals; on the integer/short-decimal values compared by the
code the rational comparison and the float comparison agree.
External collaborators (the OpenAI client, the embedding provider, the
langchain text splitters, the file system) are passed in as explicit
oracle arguments, matching the service boundaries in the source.
-/

namespace Routing

/-- Embedding of `chat/schemas/routing.py::RoutingResult` (pydantic model). -/
structure RoutingResult where
  is_business : Bool
  business_confidence : ℚ
  primary_department : String
  department_confidence : ℚ
  secondary_departments : List String
  needs_clarification : Bool
  clarifying_question : String
deriving Repr, DecidableEq

/-- The secondary-department clean-up loop inside
`RoutingResult._validate_consistency`: drop empty entries, drop entries equal
to the primary department, keep the first occurrence of each remaining code. -/
def dedupSecondaries (primary : String) (xs : List String) : List String :=
  xs.foldl
    (fun sec d =>
      if d.isEmpty then sec
      else if d = primary then sec
      else if d ∈ sec then sec
      else sec ++ [d])
    []

/-- Embedding of `RoutingResult._validate_consistency` (pydantic
`model_validator(mode="after")`): it runs exactly once, when the model is
constructed, so "parsed routing decision" means a value in the image of this
function. A raised `ValueError` is embedded as `Except.error`. -/
def validateConsistency (r : RoutingResult) : Except String RoutingResult :=
  if r.needs_clarification ∧ r.clarifying_question.trim.isEmpty then
    Except.error "needs_clarification=true requires clarifying_question"
  else
    let r := { r with secondary_departments :=
                 dedupSecondaries r.primary_department r.secondary_departments }
    if r.primary_department.trim.isEmpty then
      Except.error "primary_department must not be empty"
    else
      Except.ok r

/-- Embedding of `RoutingService._post_validate`.  Note both blocks are
guarded by `dept_codes` being non-empty (Python truthiness of the list). -/
def postValidate (r : RoutingResult) (deptCodes : List String) : RoutingResult :=
  let r :=
    if r.primary_department ≠ "unknown" ∧ deptCodes ≠ [] ∧
        r.primary_department ∉ deptCodes then
      { r with
          needs_clarification := true
          clarifying_question :=
            "どの部門の内容に近いですか？次から選んでください: " ++
              String.intercalate ", " deptCodes
          primary_department := "unknown"
          department_confidence := 0
          secondary_departments := [] }
    else r
  if deptCodes ≠ [] then
    { r with secondary_departments :=
        (r.secondary_departments.filter
          (fun d => d ∈ deptCodes ∧ d ≠ r.primary_department)).take 2 }
  else r

/-- Outcome of the structured-output LLM call made by `RoutingService.route`:
either a decision that parsed and validated, a parse/validation failure
(`pydantic.ValidationError`), or a transport/API failure (any other
exception from the client call). -/
inductive LLMRoutingOutcome where
  | parsedOk (r : RoutingResult)
  | validationError
  | apiError
deriving Repr, DecidableEq

/-- The safe default built in the `except ValidationError` arm of
`RoutingService.route`. -/
def safeDefaultParseFailure : RoutingResult :=
  { is_business := true
    business_confidence := 0
    primary_department := "unknown"
    department_confidence := 0
    secondary_departments := []
    needs_clarification := true
    clarifying_question := "どの手続き・制度・トピックに関する問い合わせか、具体名を1つ教えてください。" }

/-- The safe default built in the `except Exception` arm of
`RoutingService.route`. -/
def safeDefaultApiFailure : RoutingResult :=
  { is_business := true
    business_confidence := 0
    primary_department := "unknown"
    department_confidence := 0
    secondary_departments := []
    needs_clarification := true
    clarifying_question := "通信/内部エラーが発生しました。もう一度お試しください。" }

/-- The department-code preprocessing at the top of `RoutingService.route`:
`sorted(set([c.strip() for c in department_codes if c and c.strip()]))`. -/
def preprocessDeptCodes (codes : List String) : List String :=
  ((codes.filterMap (fun c =>
      let s := c.trim
      if s.isEmpty then none else some s)).dedup).mergeSort (fun a b => a ≤ b)

/-- Embedding of `RoutingService.route`, parameterised by the outcome of the
LLM structured-output call (the only effectful step inside the `try`). -/
def route (outcome : LLMRoutingOutcome) (departmentCodes : List String) :
    RoutingResult :=
  let deptCodes := preprocessDeptCodes departmentCodes
  match outcome with
  | .parsedOk r => postValidate r deptCodes
  | .validationError => safeDefaultParseFailure
  | .apiError => safeDefaultApiFailure

end Routing

namespace Chat

open Routing (RoutingResult)

/-- The fields of a retrieved chunk that `RAGChatService` reads
(`chunk.content`, `chunk.document`). -/
structure SChunk where
  content : String
  documentId : Option Int
deriving Repr, DecidableEq

/-- A search-backend hit as consumed by `RAGChatService`
(`result.score`, `result.chunk`). -/
structure SResult where
  chunk : SChunk
  score : ℚ
deriving Repr, DecidableEq

/-- The retrieval-meta dictionary built by
`RAGChatService._search_with_fallback`. -/
structure RetrievalMeta where
  engine : String
  scope_used : String
  fallback_triggered : Bool
  top_score : Option ℚ
  hit_count : Nat
  k : Nat
  score_threshold : ℚ
deriving Repr, DecidableEq

/-- `SCORE_THRESHOLD` in `_search_with_fallback`. -/
def scoreThreshold : ℚ := 55 / 100

/-- The scope-list construction at the top of `_search_with_fallback`:
primary department if truthy and not "unknown", then each secondary that is
truthy, not "unknown" and not already present. -/
def buildScopes (route : RoutingResult) : List String :=
  let scopes :=
    if ¬ route.primary_department.isEmpty ∧ route.primary_department ≠ "unknown"
    then [route.primary_department] else []
  route.secondary_departments.foldl
    (fun acc d =>
      if ¬ d.isEmpty ∧ d ≠ "unknown" ∧ d ∉ acc then acc ++ [d] else acc)
    scopes

/-- The search backend as seen from `_search_with_fallback`: the query
embedding is fixed for the whole call, so a backend is a function of the
`department_code` filter (`none` = unfiltered company-wide) and `top_k`. -/
abbrev SearchFn := Option String → Nat → List SResult

/-- The scope loop of `_search_with_fallback` (the `for scope in scopes`
loop followed by the company-wide fallback). -/
def scopedLoop (searchFn : SearchFn) (topK : Nat) :
    List String → List SResult × RetrievalMeta
  | [] =>
      let results := searchFn none topK
      let top := results.head?.map (fun r => r.score)
      (results,
        { engine := "vector", scope_used := "company", fallback_triggered := true
          top_score := top, hit_count := results.length, k := topK
          score_threshold := scoreThreshold })
  | scope :: rest =>
      let results := searchFn (some scope) topK
      match results.head?.map (fun r => r.score) with
      | some s =>
          if scoreThreshold ≤ s then
            (results,
              { engine := "vector", scope_used := scope, fallback_triggered := false
                top_score := some s, hit_count := results.length, k := topK
                score_threshold := scoreThreshold })
          else scopedLoop searchFn topK rest
      | none => scopedLoop searchFn topK rest

/-- Embedding of `RAGChatService._search_with_fallback`. -/
def searchWithFallback (searchFn : SearchFn) (route : RoutingResult)
    (topK : Nat) : List SResult × RetrievalMeta :=
  scopedLoop searchFn topK (buildScopes route)

/-- Modelled from the spec's words for the refinement check of the scoped
fallback: the ordered scope list is `primaryDepartment` (if not "unknown")
followed by each secondary not already included and not "unknown". -/
def specScopes (route : RoutingResult) : List String :=
  route.secondary_departments.foldl
    (fun acc d => if d ≠ "unknown" ∧ d ∉ acc then acc ++ [d] else acc)
    (if route.primary_department ≠ "unknown" then [route.primary_department] else [])

/-- Modelled from the spec's words: a scope passes when its top score is at
least the 0.55 threshold (inclusive); zero hits give no top score and fail. -/
def scopePassesSpec (searchFn : SearchFn) (scope : String) : Bool :=
  match (searchFn (some scope) 5).head?.map (fun r => r.score) with
  | some s => scoreThreshold ≤ s
  | none => false

/-- Modelled from the spec's words (claim C2): try the scopes in order, each
with `filters.departmentCode = scope` and `topK = 5`; return the first scope
whose top score is `≥ 0.55` with `fallbackTriggered = false`; if none passes,
one unfiltered company-wide search with `scopeUsed = "company"` and
`fallbackTriggered = true`. -/
def searchWithFallbackSpec (searchFn : SearchFn) (route : RoutingResult) :
    List SResult × RetrievalMeta :=
  match (specScopes route).find? (scopePassesSpec searchFn) with
  | some scope =>
      let results := searchFn (some scope) 5
      (results,
        { engine := "vector", scope_used := scope, fallback_triggered := false
          top_score := results.head?.map (fun r => r.score)
          hit_count := results.length, k := 5
          score_threshold := scoreThreshold })
  | none =>
      let results := searchFn none 5
      (results,
        { engine := "vector", scope_used := "company", fallback_triggered := true
          top_score := results.head?.map (fun r => r.score)
          hit_count := results.length, k := 5
          score_threshold := scoreThreshold })

/-- Which external collaborators a `chat` call invoked:
`embedding_service.embed_text`, `search_backend.search`,
`llm_client.complete`. -/
structure ChatEffects where
  embed_called : Bool
  search_called : Bool
  llm_complete_called : Bool
deriving Repr, DecidableEq

/-- The observable outcome of one `RAGChatService.chat` turn: the answer
text, the `meta["reason"]` field when present, and the effect log. -/
structure ChatOutput where
  answer : String
  reason : Option String
  effects : ChatEffects
deriving Repr, DecidableEq

/-- `RAGChatService._select_system_prompt`. -/
def selectSystemPrompt (deptCode : String) : String :=
  let base := "あなたは社内問合せ専用のアシスタントです。以下の社内資料（検索で取得したコンテキスト）を根拠に、日本語で簡潔かつ丁寧に回答してください。根拠が不足している場合は推測で断定せず、「手元の資料からは判断できません」と答えてください。"
  let role :=
    if deptCode = "hr" then "あなたは人事総務の担当者です。"
    else if deptCode = "finance" then "あなたは経理の担当者です。"
    else if deptCode = "legal" then "あなたは法務の担当者です。"
    else if deptCode = "it" then "あなたは情シスの担当者です。"
    else "あなたは総合窓口の担当者です。"
  base ++ "\n" ++ role

/-- `RAGChatService._build_prompt`; history entries are (role, content).
The eight-space indentation of the Python triple-quoted f-string is kept. -/
def buildPrompt (systemPrompt : String) (history : List (String × String))
    (context userMessage : String) : String :=
  let historyLines := history.map
    (fun m => (if m.1 = "user" then "User" else "Assistant") ++ ": " ++ m.2)
  let needAppend : Bool :=
    match history.getLast? with
    | none => true
    | some m => ¬ (m.1 = "user" ∧ m.2 = userMessage)
  let historyLines :=
    if needAppend then historyLines ++ ["User: " ++ userMessage] else historyLines
  let historyBlock := String.intercalate "\n" historyLines
  "[system]\n        " ++ systemPrompt ++
    "\n\n        [Conversation history]\n        " ++ historyBlock ++
    "\n\n        [Retrieved context]\n        " ++ context ++
    "\n\n        [Instruction]\n        - 必ず「Question」に対しての回答をしてください。\n        - 根拠は「Retrieved context」と「Conversation history」のみです。\n        - 根拠が不足して断定できない場合は「手元の資料からは判断できません」と答えてください。\n        - 推測で事実を作らないでください。\n\n        [Question]\n        " ++
    userMessage ++ "\n        "

/-- The canned non-business reply in `RAGChatService.chat`. -/
def notBusinessAnswer : String :=
  "本件は社内業務に関する問い合わせではない可能性が高いです。業務に関する内容であれば目的や対象手続きを具体的に教えてください。"

/-- The canned weak-retrieval reply in `RAGChatService.chat`. -/
def searchWeakAnswer : String :=
  "関連資料を特定できませんでした。対象の制度・手続き名（または担当部署の心当たり）を教えてください。"

/-- Embedding of `RAGChatService.chat` from the point where the routing
decision is available (the decision returned by `router.route` is the
`route` argument; history loading and session-context trimming only feed
that routing call).  The method consults `route.is_business` and then goes
straight to embedding and scoped search: it never reads
`route.needs_clarification`. -/
def chat (route : RoutingResult) (history : List (String × String))
    (searchFn : SearchFn) (llmComplete : String → String)
    (userMessage : String) : ChatOutput :=
  if ¬ route.is_business then
    { answer := notBusinessAnswer, reason := some "not_business"
      effects := ⟨false, false, false⟩ }
  else
    let sr := searchWithFallback searchFn route 5
    let retrievalMeta := sr.2
    let topScore := retrievalMeta.top_score
    let hitCount := retrievalMeta.hit_count
    let threshold := retrievalMeta.score_threshold
    let searchWeak : Bool :=
      topScore.isNone || hitCount == 0 ||
        (match topScore with | some s => decide (s < threshold) | none => false)
    if searchWeak then
      { answer := searchWeakAnswer, reason := some "search_weak"
        effects := ⟨true, true, false⟩ }
    else
      let contextBlock :=
        String.intercalate "\n\n" (sr.1.map (fun r => r.chunk.content))
      let prompt := buildPrompt (selectSystemPrompt route.primary_department)
        history contextBlock userMessage
      { answer := llmComplete prompt, reason := none
        effects := ⟨true, true, true⟩ }

end Chat

namespace Faiss

/-- A stored embedding vector.  `faiss.normalize_L2` rescales every vector
(and the query) by a positive constant before any comparison; since none of
the stated properties depend on that common rescaling, vectors here stand
for their already-normalised values. -/
abbrev Vec := List ℚ

/-- The fields of a `Chunk` row (with its owning document's department
eagerly loaded) that `FaissSearchBackend` reads. -/
structure ChunkRec where
  id : Int
  content : String
  docId : Int
  deptId : Int
  deptCode : String
deriving Repr, DecidableEq

/-- Content of an ID-mapped index (`IndexIDMap2` over `IndexFlatIP`):
(chunk id, stored vector) in insertion order. -/
abbrev Entries := List (Int × Vec)

/-- Mutable state of a `FaissSearchBackend`: the in-memory index, the index
file's content, the file's modification time (a logical clock that
`os.replace` advances), and `self._index_mtime`, the mtime recorded at the
last load or save. -/
structure BackendState where
  index : Entries
  fileEntries : Entries
  fileMtime : Nat
  recordedMtime : Option Nat
deriving Repr, DecidableEq

/-- Inner product of two stored vectors. -/
def dot (u v : Vec) : ℚ := (List.zipWith (fun a b => a * b) u v).sum

/-- `_save_index`: write the given index to `<path>.tmp`, atomically rename
over the index file (advancing its mtime), and record the resulting mtime.
It does not touch `self.index`. -/
def saveIndex (idx : Entries) (st : BackendState) : BackendState :=
  { st with fileEntries := idx, fileMtime := st.fileMtime + 1
            recordedMtime := some (st.fileMtime + 1) }

/-- `_maybe_reload_index`: if the file's mtime has advanced past the
recorded one, load the file's index and record the new mtime.  The failure
arms (unreadable file, dimension mismatch), which keep the old index, are
not reachable in this model because the file always holds the last
committed index. -/
def maybeReloadIndex (st : BackendState) : BackendState :=
  match st.recordedMtime with
  | some m =>
      if st.fileMtime ≤ m then st
      else { st with index := st.fileEntries, recordedMtime := some st.fileMtime }
  | none => { st with index := st.fileEntries, recordedMtime := some st.fileMtime }

/-- `index_chunks`: upsert the resolved chunks.  `embed` stands for
`embedding_service.embed_chunks` composed with `faiss.normalize_L2`.  Both
early returns (`chunk_ids` empty, no id resolving to a stored chunk) happen
before the lock, the reload, and any index or file mutation. -/
def indexChunks (store : List ChunkRec) (embed : String → Vec)
    (chunkIds : List Int) (st : BackendState) : BackendState :=
  if chunkIds = [] then st
  else
    let chunks := store.filter (fun c => c.id ∈ chunkIds)
    if chunks = [] then st
    else
      let ids := chunks.map (fun c => c.id)
      let vectors := chunks.map (fun c => embed c.content)
      let st := maybeReloadIndex st
      let pruned := st.index.filter (fun e => e.1 ∉ ids)
      let newIndex := pruned ++ List.zip ids vectors
      let st := saveIndex newIndex st
      { st with index := newIndex }

/-- `rebuild_index`: abort without writing when the chunk store is empty;
otherwise build a fresh index from all chunks ordered by id (the 256-row
batches concatenate back to exactly this ordered list), save it atomically,
then swap it in. -/
def rebuildIndex (store : List ChunkRec) (embed : String → Vec)
    (st : BackendState) : BackendState :=
  if store.length = 0 then st
  else
    let ordered := store.mergeSort (fun a b => a.id ≤ b.id)
    let newEntries := ordered.map (fun c => (c.id, embed c.content))
    let st := saveIndex newEntries st
    { st with index := newEntries }

/-- Score-descending order on (id, score) pairs. -/
def scoreGe (a b : Int × ℚ) : Prop := b.2 ≤ a.2

instance : DecidableRel scoreGe :=
  fun a b => inferInstanceAs (Decidable (b.2 ≤ a.2))

instance : IsTotal (Int × ℚ) scoreGe := ⟨fun a b => le_total b.2 a.2⟩

instance : IsTrans (Int × ℚ) scoreGe := ⟨fun _ _ _ h1 h2 => le_trans h2 h1⟩

/-- All (id, score) pairs of the index against a query. -/
def scoreAll (entries : Entries) (q : Vec) : List (Int × ℚ) :=
  entries.map (fun e => (e.1, dot e.2 q))

/-- `self.index.search(xq, k)`: an exact flat inner-product index scores
every stored vector and returns the `k` best, score descending.  (When `k`
exceeds `ntotal` faiss pads with id `-1`; the code drops those ids, so the
model simply returns fewer pairs.) -/
def rawSearch (entries : Entries) (q : Vec) (k : Nat) : List (Int × ℚ) :=
  (List.insertionSort scoreGe (scoreAll entries q)).take k

/-- `Chunk.objects.filter(id__in=...)` membership for one candidate id. -/
def lookupChunk (store : List ChunkRec) (cid : Int) : Option ChunkRec :=
  store.find? (fun c => c.id = cid)

/-- The two optional queryset filters (`document__department_id`,
`document__department__code`). -/
def matchesFilters (fid : Option Int) (fcode : Option String)
    (c : ChunkRec) : Bool :=
  (match fid with | some i => c.deptId = i | none => true) &&
  (match fcode with | some s => c.deptCode = s | none => true)

/-- The inner candidate loop of one `search` iteration: keep raw hits in
ANN order, drop ids that do not resolve to a stored chunk or whose owning
document fails the filter, and stop at `topK` results. -/
def collectResults (store : List ChunkRec) (fid : Option Int)
    (fcode : Option String) (raw : List (Int × ℚ)) (topK : Nat) :
    List (ChunkRec × ℚ) :=
  (raw.filterMap (fun p =>
    match lookupChunk store p.1 with
    | some c => if matchesFilters fid fcode c then some (c, p.2) else none
    | none => none)).take topK

/-- The `while True` body of `search`: query the top `searchK`, collect
filtered candidates, return when `topK` are collected or `searchK` has
reached `maxK`, otherwise double `searchK` (capped at `maxK`) and retry. -/
def searchLoop (entries : Entries) (store : List ChunkRec) (q : Vec)
    (topK maxK : Nat) (fid : Option Int) (fcode : Option String)
    (searchK : Nat) : List (ChunkRec × ℚ) :=
  if hraw : rawSearch entries q searchK = [] then []
  else
    let results :=
      collectResults store fid fcode (rawSearch entries q searchK) topK
    if topK ≤ results.length then results
    else if maxK ≤ searchK then results
    else searchLoop entries store q topK maxK fid fcode (min maxK (searchK * 2))
termination_by maxK + 1 - searchK
decreasing_by
  have hk : searchK ≠ 0 := by
    intro h0
    apply hraw
    simp [h0, rawSearch]
  rcases Nat.le_total maxK (searchK * 2) with hm | hm <;>
    simp [Nat.min_def, hm] <;> omega

/-- Embedding of `FaissSearchBackend.search` (after `_maybe_reload_index`,
whose effect is covered by quantifying over the in-memory `entries`):
empty index returns empty, otherwise run the expanding scoped-search loop
with `max_k = min(ntotal, topK·50)` and initial
`search_k = min(max_k, topK·5)`. -/
def search (entries : Entries) (store : List ChunkRec) (q : Vec)
    (topK : Nat) (fid : Option Int) (fcode : Option String) :
    List (ChunkRec × ℚ) :=
  if entries.length = 0 then []
  else
    let maxK := min entries.length (topK * 50)
    let searchK := min maxK (topK * 5)
    searchLoop entries store q topK maxK fid fcode searchK

end Faiss

namespace Extractor

/-- U+FFFD, the replacement character counted by `_replacement_ratio`. -/
def replacementChar : Char := Char.ofNat 0xFFFD

/-- `_replacement_ratio`: proportion of U+FFFD among the code points of the
text (Python `len` counts code points, as `String.length` does here). -/
def replacementFrac (t : String) : ℚ :=
  if t.isEmpty then 0
  else (t.toList.countP (fun ch => ch == replacementChar) : ℚ) /
    (max t.length 1 : ℚ)

/-- The warning name `pypdf2_advanced_encoding_unimplemented`. -/
def advEncWarning : String := "pypdf2_advanced_encoding_unimplemented"

/-- The warning name `mojibake_suspected`. -/
def mojibakeWarning : String := "mojibake_suspected"

/-- The value returned by `_choose_better_result`: the chosen extraction's
text, the engine name recorded for it, and its warning list. -/
structure PdfChoice where
  text : String
  engine : String
  warnings : List String
deriving Repr, DecidableEq

/-- Embedding of `PDFContentExtractor._choose_better_result` over the
primary (pypdf2) and secondary (pymupdf) texts and warning lists.  The
Python float comparisons `m_len > p_len * 1.10` and the replacement-ratio
comparison are taken exactly; on the integer lengths and count/length
fractions the code compares, the exact rational comparison agrees with the
float one. -/
def chooseBetterResult (pText : String) (pWarn : List String)
    (mText : String) (mWarn : List String) : PdfChoice :=
  if advEncWarning ∈ pWarn then ⟨mText, "pymupdf", mWarn⟩
  else if mojibakeWarning ∈ pWarn ∧ mojibakeWarning ∉ mWarn then
    ⟨mText, "pymupdf", mWarn⟩
  else if mojibakeWarning ∈ mWarn ∧ mojibakeWarning ∉ pWarn then
    ⟨pText, "pypdf2", pWarn⟩
  else if (mText.length : ℚ) > (pText.length : ℚ) * (11 / 10) then
    ⟨mText, "pymupdf", mWarn⟩
  else if (pText.length : ℚ) > (mText.length : ℚ) * (11 / 10) then
    ⟨pText, "pypdf2", pWarn⟩
  else if replacementFrac mText < replacementFrac pText then
    ⟨mText, "pymupdf", mWarn⟩
  else if replacementFrac pText < replacementFrac mText then
    ⟨pText, "pypdf2", pWarn⟩
  else if mWarn.length < pWarn.length then ⟨mText, "pymupdf", mWarn⟩
  else ⟨pText, "pypdf2", pWarn⟩

end Extractor

namespace Ingestion

/-- The metadata fields of an extraction that
`DocumentIngestionService.ingest_document` reads.  An absent `engine` or
`type` key is embedded as the empty string (both are only compared against
non-empty literals or defaulted to "unknown"). -/
structure ExtractMeta where
  mtype : String
  engine : String
  warnings : List String
  csvHeader : List String
  rowsPerChunkHint : Option Nat
deriving Repr, DecidableEq

/-- Embedding of `ExtractedContent` as consumed by the ingestion service. -/
structure ExtractedDoc where
  full_text : String
  pages : Option (List String)
  num_pages : Option Nat
  meta : ExtractMeta
deriving Repr, DecidableEq

/-- An `IngestionError`: its message and the extractor metadata it carries. -/
structure IngestionFailure where
  message : String
  extract_meta : ExtractMeta
deriving Repr, DecidableEq

/-- A `Chunk` row as produced by the bulk create at the end of ingestion. -/
structure ChunkRow where
  chunk_index : Nat
  page : Option Nat
  content : String
  embedding : Faiss.Vec
deriving Repr, DecidableEq

/-- `IngestionResult`. -/
structure IngestionOutcome where
  chunk_count : Nat
  extractor_engine : String
  warnings : List String
  extractor_metadata : ExtractMeta
  num_pages : Option Nat
deriving Repr, DecidableEq

/-- `IngestionError` message for suspected scan PDFs. -/
def scanPdfMessage : String := "スキャンPDF（OCR未対応）の可能性が高いため取り込み不可です。"

/-- `IngestionError` message for empty extracted text. -/
def emptyTextMessage : String := "抽出テキストが空のため、チャンクを生成できません。"

/-- `IngestionError` message for an empty chunk-pair list. -/
def noChunksMessage : String := "チャンクが生成されませんでした（抽出結果が空/分割不能）。"

/-- `CSV_LINES_PER_CHUNK_DEFAULT`. -/
def csvLinesPerChunkDefault : Nat := 20

/-- Group a list into consecutive blocks of `n` (the `range(0, len, n)`
loop in `_chunk_csv`); `n` is never 0 at the call site. -/
def groupBlocks (n : Nat) (xs : List String) : List (List String) :=
  if h : n = 0 ∨ xs = [] then []
  else
    xs.take n :: groupBlocks n (xs.drop n)
termination_by xs.length
decreasing_by
  rcases xs with - | ⟨x, rest⟩
  · simp at h
  · simp only [List.length_cons, List.length_drop]
    omega

/-- Embedding of `DocumentIngestionService._chunk_csv`. -/
def chunkCsv (fullText : String) (meta : ExtractMeta) :
    List (Option Nat × String) :=
  let headerLine :=
    if meta.csvHeader ≠ [] then
      "CSVヘッダ: " ++ String.intercalate ", " meta.csvHeader
    else ""
  let lines := ((fullText.splitOn "\n").map (fun l => l.trim)).filter
    (fun l => ¬ l.isEmpty)
  if lines = [] then []
  else
    let n := match meta.rowsPerChunkHint with
      | some k => if k = 0 then csvLinesPerChunkDefault else k
      | none => csvLinesPerChunkDefault
    (groupBlocks n lines).map (fun block =>
      let blockText := String.intercalate "\n" block
      let chunkText :=
        if ¬ headerLine.isEmpty then (headerLine ++ "\n" ++ blockText).trim
        else blockText
      (none, chunkText))

/-- Chunk pairs from the per-page PDF path of `ingest_document`: enumerate
pages from 1, skip blank pages, split each page, keep non-blank chunks. -/
def pagePairs (pdfSplit : String → List String) (pages : List String) :
    List (Option Nat × String) :=
  (pages.enumFrom 1).flatMap (fun p =>
    let pageText := p.2.trim
    if pageText.isEmpty then []
    else (pdfSplit pageText).filterMap (fun chunkText =>
      let ct := chunkText.trim
      if ct.isEmpty then none else some (some p.1, ct)))

/-- Chunk pairs from a splitter applied to the whole text (the `text` and
generic branches of `ingest_document`). -/
def splitPairs (split : String → List String) (fullText : String) :
    List (Option Nat × String) :=
  (split fullText).filterMap (fun chunkText =>
    let ct := chunkText.trim
    if ct.isEmpty then none else some (none, ct))

/-- Steps 5–8 of `ingest_document`: fail when no chunk pairs were produced,
otherwise embed all chunk texts in one call and bulk-create the `Chunk`
rows with dense `chunk_index` starting at 0 in pair order. -/
def finishIngestion (extractMeta : ExtractMeta) (engine : String)
    (numPages : Option Nat) (embedMany : List String → List Faiss.Vec)
    (pairs : List (Option Nat × String)) :
    Except IngestionFailure (IngestionOutcome × List ChunkRow) :=
  if pairs = [] then Except.error ⟨noChunksMessage, extractMeta⟩
  else
    let texts := pairs.map (fun p => p.2)
    let vectors := embedMany texts
    let rows := (List.zip pairs vectors).enum.map (fun e =>
      { chunk_index := e.1, page := e.2.1.1, content := e.2.1.2
        embedding := e.2.2 : ChunkRow })
    Except.ok
      ({ chunk_count := rows.length, extractor_engine := engine
         warnings := extractMeta.warnings, extractor_metadata := extractMeta
         num_pages := numPages }, rows)

/-- Embedding of `DocumentIngestionService.ingest_document` from the point
where extraction has produced its `ExtractedContent` (blob-path resolution
and the extractor run precede it; the langchain splitters and the embedding
provider are the oracle arguments).  `Except.error` models a raised
`IngestionError`: the chunk rows in the `ok` payload are exactly what
`bulk_create` persists, so an error persists none. -/
def ingestDocument (content : ExtractedDoc)
    (pdfSplit textSplit genericSplit : String → List String)
    (embedMany : List String → List Faiss.Vec) :
    Except IngestionFailure (IngestionOutcome × List ChunkRow) :=
  let extractMeta := content.meta
  let engine := if extractMeta.engine.isEmpty then "unknown" else extractMeta.engine
  let warnings := extractMeta.warnings
  if extractMeta.mtype = "pdf" ∧
      ("no_text_extracted" ∈ warnings ∨ "image_pdf_suspected" ∈ warnings) then
    Except.error ⟨scanPdfMessage, extractMeta⟩
  else
    let docType := if extractMeta.mtype.isEmpty then "unknown" else extractMeta.mtype
    let usePages : Bool := match content.pages with
      | some ps => ¬ ps.isEmpty
      | none => false
    if usePages then
      finishIngestion extractMeta engine content.num_pages embedMany
        (pagePairs pdfSplit (content.pages.getD []))
    else
      let fullText := content.full_text.trim
      if fullText.isEmpty then Except.error ⟨emptyTextMessage, extractMeta⟩
      else
        let pairs :=
          if docType = "csv" then chunkCsv fullText extractMeta
          else if docType = "text" then splitPairs textSplit fullText
          else splitPairs genericSplit fullText
        finishIngestion extractMeta engine content.num_pages embedMany pairs

/-- The `Chunk` rows a finished ingestion call persisted: the bulk-created
rows on success, nothing when an `IngestionError` was raised. -/
def persistedChunks
    (r : Except IngestionFailure (IngestionOutcome × List ChunkRow)) :
    List ChunkRow :=
  match r with
  | .ok x => x.2
  | .error _ => []

end Ingestion

/-! Concrete instances used to evaluate the embedded services on closed
inputs. -/

/-- A routing decision whose primary department is not a known code and
whose three distinct secondaries survive pydantic validation unchanged. -/
def rXyz : Routing.RoutingResult :=
  { is_business := true, business_confidence := 0
    primary_department := "xyz", department_confidence := 1/2
    secondary_departments := ["a", "b", "c"]
    needs_clarification := false, clarifying_question := "" }

/-- A routing decision that asks for clarification (and is business). -/
def rClarify : Routing.RoutingResult :=
  { is_business := true, business_confidence := 1/2
    primary_department := "finance", department_confidence := 1/2
    secondary_departments := [], needs_clarification := true
    clarifying_question := "確認です。対象の制度名は何ですか？" }

/-- A routing decision for the finance department with one secondary. -/
def rFinance : Routing.RoutingResult :=
  { is_business := true, business_confidence := 1
    primary_department := "finance", department_confidence := 1
    secondary_departments := ["hr"], needs_clarification := false
    clarifying_question := "" }

/-- A search backend that returns one finance hit exactly at the 0.55
threshold and nothing for any other scope. -/
def sfnBoundary : Chat.SearchFn := fun scope _k =>
  if scope = some "finance" then [⟨⟨"doc", some 1⟩, 55/100⟩] else []

/-- A search backend with no content at all. -/
def sfnEmpty : Chat.SearchFn := fun _ _ => []

/-- A two-vector index over a one-dimensional embedding space. -/
def wEnts : Faiss.Entries := [(1, [1]), (2, [1])]

/-- The chunk store owning the two indexed vectors, both in `hr`. -/
def wStore : List Faiss.ChunkRec :=
  [⟨1, "a", 1, 1, "hr"⟩, ⟨2, "b", 1, 1, "hr"⟩]

/-- An extraction outcome flagged as a suspected image-only PDF. -/
def wScanPdf : Ingestion.ExtractedDoc :=
  { full_text := "x", pages := some ["x"], num_pages := some 1
    meta := { mtype := "pdf", engine := "pypdf2"
              warnings := ["image_pdf_suspected"]
              csvHeader := [], rowsPerChunkHint := none } }

/-! ## Theorems -/

/-- C4: `rebuild_index` invoked while the `ChunkStore` contains zero chunks
returns without writing: the index file's content is not overwritten, its
modification time is unchanged, and the in-memory index is not replaced. -/
theorem rebuildIndex_empty_store_noop (embed : String → Faiss.Vec)
    (st : Faiss.BackendState) :
    (Faiss.rebuildIndex [] embed st).fileEntries = st.fileEntries ∧
    (Faiss.rebuildIndex [] embed st).fileMtime = st.fileMtime ∧
    (Faiss.rebuildIndex [] embed st).index = st.index :=
  ⟨rfl, rfl, rfl⟩

/-- C10: `index_chunks` with a non-empty id list none of which resolves to
a stored chunk returns before the lock: the in-memory index, the index
file, its modification time and the recorded modification time are all
unchanged. -/
theorem indexChunks_unresolved_noop (store : List Faiss.ChunkRec)
    (embed : String → Faiss.Vec) (ids : List Int) (st : Faiss.BackendState)
    (hne : ids ≠ []) (hnores : ∀ c ∈ store, c.id ∉ ids) :
    Faiss.indexChunks store embed ids st = st := by
  have hfilter : store.filter (fun c => decide (c.id ∈ ids)) = [] := by
    rw [List.filter_eq_nil_iff]
    intro c hc
    simpa using hnores c hc
  unfold Faiss.indexChunks
  rw [if_neg hne]
  simp only [hfilter]
  simp

/-- C10 witness: a store whose single chunk id 5 is not among the requested
ids [1, 2]. -/
theorem indexChunks_unresolved_noop_witness :
    Faiss.indexChunks [⟨5, "c", 1, 2, "hr"⟩] (fun _ => [1]) [1, 2]
        ⟨[(5, [1])], [(5, [1])], 3, some 3⟩ =
      ⟨[(5, [1])], [(5, [1])], 3, some 3⟩ :=
  indexChunks_unresolved_noop _ _ _ _ (by decide) (by decide)

/-- C7: whenever the routing LLM call fails — structured parse/validation
failure or transport/API failure — `RoutingService.route` returns (rather
than raising) a safe default with `is_business = true`,
`primary_department = "unknown"`, `needs_clarification = true` and a
non-empty clarifying question. -/
theorem route_failure_safe_default (o : Routing.LLMRoutingOutcome)
    (codes : List String)
    (h : o = .validationError ∨ o = .apiError) :
    (Routing.route o codes).is_business = true ∧
    (Routing.route o codes).primary_department = "unknown" ∧
    (Routing.route o codes).needs_clarification = true ∧
    (Routing.route o codes).clarifying_question ≠ "" := by
  rcases h with h | h <;> subst h
  · exact ⟨rfl, rfl, rfl,
      (by decide : Routing.safeDefaultParseFailure.clarifying_question ≠ "")⟩
  · exact ⟨rfl, rfl, rfl,
      (by decide : Routing.safeDefaultApiFailure.clarifying_question ≠ "")⟩

/-- C8: when the secondary PDF engine has run, `_choose_better_result`
selects by this priority: primary flagged
`pypdf2_advanced_encoding_unimplemented` picks the secondary; if exactly
one side is flagged `mojibake_suspected` the clean side is picked; if the
text lengths differ by more than 10% the longer is picked; otherwise the
lower replacement-character ratio wins; otherwise fewer warnings wins;
otherwise the primary is kept. -/
theorem chooseBetterResult_priority (pText : String) (pWarn : List String)
    (mText : String) (mWarn : List String) :
    (Extractor.advEncWarning ∈ pWarn →
      Extractor.chooseBetterResult pText pWarn mText mWarn =
        ⟨mText, "pymupdf", mWarn⟩) ∧
    (Extractor.advEncWarning ∉ pWarn →
      Extractor.mojibakeWarning ∈ pWarn → Extractor.mojibakeWarning ∉ mWarn →
      Extractor.chooseBetterResult pText pWarn mText mWarn =
        ⟨mText, "pymupdf", mWarn⟩) ∧
    (Extractor.advEncWarning ∉ pWarn →
      Extractor.mojibakeWarning ∈ mWarn → Extractor.mojibakeWarning ∉ pWarn →
      Extractor.chooseBetterResult pText pWarn mText mWarn =
        ⟨pText, "pypdf2", pWarn⟩) ∧
    (Extractor.advEncWarning ∉ pWarn →
      (Extractor.mojibakeWarning ∈ pWarn ↔ Extractor.mojibakeWarning ∈ mWarn) →
      (mText.length : ℚ) > (pText.length : ℚ) * (11 / 10) →
      Extractor.chooseBetterResult pText pWarn mText mWarn =
        ⟨mText, "pymupdf", mWarn⟩) ∧
    (Extractor.advEncWarning ∉ pWarn →
      (Extractor.mojibakeWarning ∈ pWarn ↔ Extractor.mojibakeWarning ∈ mWarn) →
      (pText.length : ℚ) > (mText.length : ℚ) * (11 / 10) →
      Extractor.chooseBetterResult pText pWarn mText mWarn =
        ⟨pText, "pypdf2", pWarn⟩) ∧
    (Extractor.advEncWarning ∉ pWarn →
      (Extractor.mojibakeWarning ∈ pWarn ↔ Extractor.mojibakeWarning ∈ mWarn) →
      ¬ (mText.length : ℚ) > (pText.length : ℚ) * (11 / 10) →
      ¬ (pText.length : ℚ) > (mText.length : ℚ) * (11 / 10) →
      Extractor.replacementFrac mText < Extractor.replacementFrac pText →
      Extractor.chooseBetterResult pText pWarn mText mWarn =
        ⟨mText, "pymupdf", mWarn⟩) ∧
    (Extractor.advEncWarning ∉ pWarn →
      (Extractor.mojibakeWarning ∈ pWarn ↔ Extractor.mojibakeWarning ∈ mWarn) →
      ¬ (mText.length : ℚ) > (pText.length : ℚ) * (11 / 10) →
      ¬ (pText.length : ℚ) > (mText.length : ℚ) * (11 / 10) →
      Extractor.replacementFrac pText < Extractor.replacementFrac mText →
      Extractor.chooseBetterResult pText pWarn mText mWarn =
        ⟨pText, "pypdf2", pWarn⟩) ∧
    (Extractor.advEncWarning ∉ pWarn →
      (Extractor.mojibakeWarning ∈ pWarn ↔ Extractor.mojibakeWarning ∈ mWarn) →
      ¬ (mText.length : ℚ) > (pText.length : ℚ) * (11 / 10) →
      ¬ (pText.length : ℚ) > (mText.length : ℚ) * (11 / 10) →
      Extractor.replacementFrac mText = Extractor.replacementFrac pText →
      mWarn.length < pWarn.length →
      Extractor.chooseBetterResult pText pWarn mText mWarn =
        ⟨mText, "pymupdf", mWarn⟩) ∧
    (Extractor.advEncWarning ∉ pWarn →
      (Extractor.mojibakeWarning ∈ pWarn ↔ Extractor.mojibakeWarning ∈ mWarn) →
      ¬ (mText.length : ℚ) > (pText.length : ℚ) * (11 / 10) →
      ¬ (pText.length : ℚ) > (mText.length : ℚ) * (11 / 10) →
      Extractor.replacementFrac mText = Extractor.replacementFrac pText →
      ¬ mWarn.length < pWarn.length →
      Extractor.chooseBetterResult pText pWarn mText mWarn =
        ⟨pText, "pypdf2", pWarn⟩) := by
  have hplen : (0 : ℚ) ≤ (pText.length : ℚ) := by positivity
  have hmlen : (0 : ℚ) ≤ (mText.length : ℚ) := by positivity
  refine ⟨?_, ?_, ?_, ?_, ?_, ?_, ?_, ?_, ?_⟩
  · intro h1
    unfold Extractor.chooseBetterResult
    rw [if_pos h1]
  · intro h1 h2 h3
    unfold Extractor.chooseBetterResult
    rw [if_neg h1, if_pos ⟨h2, h3⟩]
  · intro h1 h2 h3
    unfold Extractor.chooseBetterResult
    rw [if_neg h1, if_neg (fun hc => h3 hc.1), if_pos ⟨h2, h3⟩]
  · intro h1 hiff h4
    unfold Extractor.chooseBetterResult
    rw [if_neg h1, if_neg (fun hc => hc.2 (hiff.mp hc.1)),
      if_neg (fun hc => hc.2 (hiff.mpr hc.1)), if_pos h4]
  · intro h1 hiff h5
    unfold Extractor.chooseBetterResult
    rw [if_neg h1, if_neg (fun hc => hc.2 (hiff.mp hc.1)),
      if_neg (fun hc => hc.2 (hiff.mpr hc.1)),
      if_neg (by intro hm; linarith), if_pos h5]
  · intro h1 hiff h4 h5 h6
    unfold Extractor.chooseBetterResult
    rw [if_neg h1, if_neg (fun hc => hc.2 (hiff.mp hc.1)),
      if_neg (fun hc => hc.2 (hiff.mpr hc.1)), if_neg h4, if_neg h5,
      if_pos h6]
  · intro h1 hiff h4 h5 h7
    unfold Extractor.chooseBetterResult
    rw [if_neg h1, if_neg (fun hc => hc.2 (hiff.mp hc.1)),
      if_neg (fun hc => hc.2 (hiff.mpr hc.1)), if_neg h4, if_neg h5,
      if_neg (by intro hm; linarith), if_pos h7]
  · intro h1 hiff h4 h5 heq h8
    unfold Extractor.chooseBetterResult
    rw [if_neg h1, if_neg (fun hc => hc.2 (hiff.mp hc.1)),
      if_neg (fun hc => hc.2 (hiff.mpr hc.1)), if_neg h4, if_neg h5,
      if_neg (by rw [heq]; exact lt_irrefl _),
      if_neg (by rw [heq]; exact lt_irrefl _), if_pos h8]
  · intro h1 hiff h4 h5 heq h8
    unfold Extractor.chooseBetterResult
    rw [if_neg h1, if_neg (fun hc => hc.2 (hiff.mp hc.1)),
      if_neg (fun hc => hc.2 (hiff.mpr hc.1)), if_neg h4, if_neg h5,
      if_neg (by rw [heq]; exact lt_irrefl _),
      if_neg (by rw [heq]; exact lt_irrefl _), if_neg h8]

/-- C8 witness: the primary result carries the advanced-encoding flag, so
the secondary result is selected. -/
theorem chooseBetterResult_priority_witness :
    Extractor.chooseBetterResult "a" [Extractor.advEncWarning] "bb" [] =
      ⟨"bb", "pymupdf", []⟩ :=
  (chooseBetterResult_priority "a" [Extractor.advEncWarning] "bb" []).1
    (by decide)

/-- C9: a document whose extracted content has type `pdf` and whose
extraction warnings include `no_text_extracted` or `image_pdf_suspected`
makes `ingest_document` fail with an `IngestionError` carrying the
extractor metadata, and no `Chunk` rows are persisted for it. -/
theorem ingestDocument_scan_pdf_rejected (content : Ingestion.ExtractedDoc)
    (pdfSplit textSplit genericSplit : String → List String)
    (embedMany : List String → List Faiss.Vec)
    (hpdf : content.meta.mtype = "pdf")
    (hwarn : "no_text_extracted" ∈ content.meta.warnings ∨
      "image_pdf_suspected" ∈ content.meta.warnings) :
    Ingestion.ingestDocument content pdfSplit textSplit genericSplit
        embedMany =
      Except.error ⟨Ingestion.scanPdfMessage, content.meta⟩ ∧
    Ingestion.persistedChunks
        (Ingestion.ingestDocument content pdfSplit textSplit genericSplit
          embedMany) = [] := by
  have herr : Ingestion.ingestDocument content pdfSplit textSplit
      genericSplit embedMany =
      Except.error ⟨Ingestion.scanPdfMessage, content.meta⟩ := by
    unfold Ingestion.ingestDocument
    rw [if_pos ⟨hpdf, hwarn⟩]
  exact ⟨herr, by rw [herr]; rfl⟩

/-- C9 witness: a one-page PDF flagged `image_pdf_suspected`. -/
theorem ingestDocument_scan_pdf_rejected_witness :
    Ingestion.ingestDocument wScanPdf (fun t => [t]) (fun t => [t])
        (fun t => [t]) (fun ts => ts.map (fun _ => [1])) =
      Except.error ⟨Ingestion.scanPdfMessage, wScanPdf.meta⟩ ∧
    Ingestion.persistedChunks
        (Ingestion.ingestDocument wScanPdf (fun t => [t]) (fun t => [t])
          (fun t => [t]) (fun ts => ts.map (fun _ => [1]))) = [] :=
  ingestDocument_scan_pdf_rejected wScanPdf _ _ _ _ rfl
    (Or.inr (by decide))

theorem dedupSecondaries_go_nodup (primary : String) (xs : List String) :
    ∀ acc : List String, acc.Nodup →
      (xs.foldl
        (fun sec d =>
          if d.isEmpty then sec
          else if d = primary then sec
          else if d ∈ sec then sec
          else sec ++ [d]) acc).Nodup := by
  induction xs with
  | nil => intro acc hacc; exact hacc
  | cons x xs ih =>
      intro acc hacc
      simp only [List.foldl_cons]
      split_ifs with h1 h2 h3
      · exact ih acc hacc
      · exact ih acc hacc
      · exact ih acc hacc
      · refine ih _ ?_
        rw [List.nodup_append]
        exact ⟨hacc, List.nodup_singleton x, by simpa using h3⟩

theorem dedupSecondaries_nodup (primary : String) (xs : List String) :
    (Routing.dedupSecondaries primary xs).Nodup :=
  dedupSecondaries_go_nodup primary xs [] List.nodup_nil

theorem validateConsistency_ok_shape (r0 r : Routing.RoutingResult)
    (h : Routing.validateConsistency r0 = Except.ok r) :
    r = { r0 with secondary_departments :=
            (Routing.dedupSecondaries r0.primary_department
              r0.secondary_departments) } := by
  unfold Routing.validateConsistency at h
  split at h
  · cases h
  · simp only [] at h
    split at h
    · cases h
    · cases h
      rfl

theorem postValidate_eq_reset (r : Routing.RoutingResult)
    (deptCodes : List String)
    (hA : r.primary_department ≠ "unknown" ∧ deptCodes ≠ [] ∧
      r.primary_department ∉ deptCodes) :
    Routing.postValidate r deptCodes =
      { r with needs_clarification := true
               clarifying_question :=
                 "どの部門の内容に近いですか？次から選んでください: " ++
                   String.intercalate ", " deptCodes
               primary_department := "unknown"
               department_confidence := 0
               secondary_departments := [] } := by
  unfold Routing.postValidate
  simp only []
  rw [if_pos hA, if_pos hA.2.1]
  simp

theorem postValidate_eq_filter (r : Routing.RoutingResult)
    (deptCodes : List String)
    (hA : ¬ (r.primary_department ≠ "unknown" ∧ deptCodes ≠ [] ∧
      r.primary_department ∉ deptCodes)) (hne : deptCodes ≠ []) :
    Routing.postValidate r deptCodes =
      { r with secondary_departments :=
          (r.secondary_departments.filter
            (fun d => d ∈ deptCodes ∧ d ≠ r.primary_department)).take 2 } := by
  unfold Routing.postValidate
  simp only []
  rw [if_neg hA, if_pos hne]

/-- C3 fails as stated: when the known-code list is empty (no department
rows), `_post_validate` leaves everything untouched, so a parsed decision
whose primary department "xyz" is neither "unknown" nor a known code keeps
its primary, is not flagged for clarification, and keeps its three
secondary departments. -/
theorem postValidate_empty_codes_counterexample :
    Routing.validateConsistency rXyz = Except.ok rXyz ∧
    rXyz.primary_department ≠ "unknown" ∧
    (Routing.postValidate rXyz []).primary_department ≠ "unknown" ∧
    (Routing.postValidate rXyz []).needs_clarification = false ∧
    (Routing.postValidate rXyz []).secondary_departments.length = 3 :=
  ⟨by with_unfolding_all rfl, by decide, by with_unfolding_all decide,
    by with_unfolding_all decide, by with_unfolding_all decide⟩

/-- C3 (amended: the guarantees hold for a NON-EMPTY list of known
department codes; with an empty list `_post_validate` changes nothing):
for every parsed routing decision, if the primary department is neither
"unknown" nor a known code it is reset to "unknown" with confidence 0,
`needs_clarification = true` and a clarifying question enumerating the
legal codes, and the secondaries are cleared; and in all cases the
resulting secondaries contain only known codes, have no duplicates, do not
contain the resulting primary, and number at most 2. -/
theorem postValidate_known_codes (r0 r : Routing.RoutingResult)
    (deptCodes : List String)
    (hparsed : Routing.validateConsistency r0 = Except.ok r)
    (hne : deptCodes ≠ []) :
    (r.primary_department ≠ "unknown" → r.primary_department ∉ deptCodes →
      (Routing.postValidate r deptCodes).primary_department = "unknown" ∧
      (Routing.postValidate r deptCodes).department_confidence = 0 ∧
      (Routing.postValidate r deptCodes).needs_clarification = true ∧
      (Routing.postValidate r deptCodes).clarifying_question =
        "どの部門の内容に近いですか？次から選んでください: " ++
          String.intercalate ", " deptCodes ∧
      (Routing.postValidate r deptCodes).secondary_departments = []) ∧
    ((Routing.postValidate r deptCodes).secondary_departments ⊆ deptCodes ∧
      (Routing.postValidate r deptCodes).secondary_departments.Nodup ∧
      (Routing.postValidate r deptCodes).primary_department ∉
        (Routing.postValidate r deptCodes).secondary_departments ∧
      (Routing.postValidate r deptCodes).secondary_departments.length ≤ 2) := by
  have hnd : r.secondary_departments.Nodup := by
    rw [validateConsistency_ok_shape r0 r hparsed]
    exact dedupSecondaries_nodup _ _
  constructor
  · intro hpu hpm
    rw [postValidate_eq_reset r deptCodes ⟨hpu, hne, hpm⟩]
    exact ⟨rfl, rfl, rfl, rfl, rfl⟩
  · by_cases hA : r.primary_department ≠ "unknown" ∧ deptCodes ≠ [] ∧
      r.primary_department ∉ deptCodes
    · rw [postValidate_eq_reset r deptCodes hA]
      simp
    · rw [postValidate_eq_filter r deptCodes hA hne]
      simp only
      refine ⟨?_, ?_, ?_, ?_⟩
      · intro x hx
        have hx2 := List.mem_of_mem_take hx
        have hx3 := List.mem_filter.mp hx2
        have hx4 : x ∈ deptCodes ∧ x ≠ r.primary_department := by
          simpa using hx3.2
        exact hx4.1
      · exact ((r.secondary_departments.filter _).take_sublist 2).nodup
          (hnd.filter _)
      · intro hx
        have hx2 := List.mem_of_mem_take hx
        have hx3 := List.mem_filter.mp hx2
        have hx4 : r.primary_department ∈ deptCodes ∧
            r.primary_department ≠ r.primary_department := by
          simpa using hx3.2
        exact hx4.2 rfl
      · exact List.length_take_le 2 _

/-- C3 witness: the decision with unknown code "xyz" against known list
["hr"]. -/
theorem postValidate_known_codes_witness :
    (Routing.postValidate rXyz ["hr"]).primary_department = "unknown" ∧
    (Routing.postValidate rXyz ["hr"]).department_confidence = 0 ∧
    (Routing.postValidate rXyz ["hr"]).needs_clarification = true ∧
    (Routing.postValidate rXyz ["hr"]).clarifying_question =
      "どの部門の内容に近いですか？次から選んでください: " ++
        String.intercalate ", " ["hr"] ∧
    (Routing.postValidate rXyz ["hr"]).secondary_departments = [] :=
  (postValidate_known_codes rXyz rXyz ["hr"] (by with_unfolding_all rfl)
    (by decide)).1 (by decide) (by decide)

theorem scopesFold_eq (xs : List String) :
    ∀ acc : List String, (∀ d ∈ xs, d ≠ "") →
      xs.foldl
        (fun acc d =>
          if ¬ d.isEmpty ∧ d ≠ "unknown" ∧ d ∉ acc then acc ++ [d] else acc)
        acc =
      xs.foldl
        (fun acc d => if d ≠ "unknown" ∧ d ∉ acc then acc ++ [d] else acc)
        acc := by
  induction xs with
  | nil => intro acc _; rfl
  | cons x xs ih =>
      intro acc hs
      have hx : x ≠ "" := hs x (by simp)
      have hxe : ¬ x.isEmpty := by simpa [String.isEmpty_iff] using hx
      simp only [List.foldl_cons]
      by_cases hP : x ≠ "unknown" ∧ x ∉ acc
      · rw [if_pos ⟨hxe, hP.1, hP.2⟩, if_pos hP]
        exact ih _ (fun d hd => hs d (List.mem_cons_of_mem _ hd))
      · rw [if_neg (fun hc => hP ⟨hc.2.1, hc.2.2⟩), if_neg hP]
        exact ih _ (fun d hd => hs d (List.mem_cons_of_mem _ hd))

theorem buildScopes_eq_spec (route : Routing.RoutingResult)
    (hp : route.primary_department ≠ "")
    (hs : ∀ d ∈ route.secondary_departments, d ≠ "") :
    Chat.buildScopes route = Chat.specScopes route := by
  unfold Chat.buildScopes Chat.specScopes
  simp only []
  have hinit :
      (if ¬ route.primary_department.isEmpty ∧
          route.primary_department ≠ "unknown"
        then [route.primary_department] else []) =
      (if route.primary_department ≠ "unknown"
        then [route.primary_department] else []) := by
    by_cases hu : route.primary_department ≠ "unknown"
    · rw [if_pos ⟨by simpa [String.isEmpty_iff] using hp, hu⟩, if_pos hu]
    · rw [if_neg (fun hc => hu hc.2), if_neg hu]
  rw [hinit]
  exact scopesFold_eq _ _ hs

theorem scopedLoop_eq_find (searchFn : Chat.SearchFn) (scopes : List String) :
    Chat.scopedLoop searchFn 5 scopes =
      (match scopes.find? (Chat.scopePassesSpec searchFn) with
       | some scope =>
           (searchFn (some scope) 5,
             { engine := "vector", scope_used := scope
               fallback_triggered := false
               top_score := (searchFn (some scope) 5).head?.map
                 (fun r => r.score)
               hit_count := (searchFn (some scope) 5).length, k := 5
               score_threshold := Chat.scoreThreshold })
       | none =>
           (searchFn none 5,
             { engine := "vector", scope_used := "company"
               fallback_triggered := true
               top_score := (searchFn none 5).head?.map (fun r => r.score)
               hit_count := (searchFn none 5).length, k := 5
               score_threshold := Chat.scoreThreshold })) := by
  induction scopes with
  | nil => rfl
  | cons scope rest ih =>
      cases hh : (searchFn (some scope) 5).head? with
      | none =>
          have hpass : Chat.scopePassesSpec searchFn scope = false := by
            simp [Chat.scopePassesSpec, hh]
          simp only [Chat.scopedLoop, hh, List.find?_cons, hpass, ih]
          rfl
      | some r =>
          by_cases hts : Chat.scoreThreshold ≤ r.score
          · have hpass : Chat.scopePassesSpec searchFn scope = true := by
              simp [Chat.scopePassesSpec, hh, hts]
            simp only [Chat.scopedLoop, hh, List.find?_cons, hpass]
            simp [hts, hh]
          · have hpass : Chat.scopePassesSpec searchFn scope = false := by
              simp [Chat.scopePassesSpec, hh, hts]
            simp only [Chat.scopedLoop, hh, List.find?_cons, hpass, ih]
            simp [hts]

theorem validateConsistency_ok_primary (r0 r : Routing.RoutingResult)
    (h : Routing.validateConsistency r0 = Except.ok r) :
    r.primary_department ≠ "" := by
  unfold Routing.validateConsistency at h
  split at h
  · cases h
  · simp only [] at h
    split at h
    · cases h
    · rename_i h2
      cases h
      intro hemp
      apply h2
      rw [hemp]
      with_unfolding_all decide

theorem dedupSecondaries_go_no_empty (primary : String) (xs : List String) :
    ∀ acc : List String, "" ∉ acc →
      "" ∉ xs.foldl
        (fun sec d =>
          if d.isEmpty then sec
          else if d = primary then sec
          else if d ∈ sec then sec
          else sec ++ [d]) acc := by
  induction xs with
  | nil => intro acc hacc; exact hacc
  | cons x xs ih =>
      intro acc hacc
      simp only [List.foldl_cons]
      split_ifs with h1 h2 h3
      · exact ih acc hacc
      · exact ih acc hacc
      · exact ih acc hacc
      · refine ih _ ?_
        have hx : x ≠ "" := fun h0 => h1 (by rw [h0]; rfl)
        rw [List.mem_append]
        rintro (hin | hin)
        · exact hacc hin
        · rw [List.mem_singleton] at hin
          exact hx hin.symm

theorem validateConsistency_ok_no_empty (r0 r : Routing.RoutingResult)
    (h : Routing.validateConsistency r0 = Except.ok r) :
    "" ∉ r.secondary_departments := by
  rw [validateConsistency_ok_shape r0 r h]
  exact dedupSecondaries_go_no_empty r0.primary_department
    r0.secondary_departments [] (by simp)

/-- C2: for every parsed routing decision, the scoped search with fallback
of `RAGChatService` coincides with the specified behaviour: scopes are
tried in order (primary if not "unknown", then each secondary not already
included and not "unknown"), each with `filters.department_code = scope`
and `top_k = 5`; the first scope whose top score is `≥ 0.55` (inclusive at
exactly 0.55) is returned with `fallback_triggered = false` and
`scope_used` = that scope; if no scope passes, one unfiltered company-wide
search is returned with `scope_used = "company"` and
`fallback_triggered = true`. -/
theorem searchWithFallback_matches_spec (searchFn : Chat.SearchFn)
    (r0 route : Routing.RoutingResult)
    (hparsed : Routing.validateConsistency r0 = Except.ok route) :
    Chat.searchWithFallback searchFn route 5 =
      Chat.searchWithFallbackSpec searchFn route := by
  have hp := validateConsistency_ok_primary r0 route hparsed
  have hs := validateConsistency_ok_no_empty r0 route hparsed
  unfold Chat.searchWithFallback Chat.searchWithFallbackSpec
  rw [buildScopes_eq_spec route hp (fun d hd hde => hs (hde ▸ hd))]
  exact scopedLoop_eq_find searchFn (Chat.specScopes route)

/-- C2 witness: the finance-primary decision against a backend whose
finance top score is exactly 0.55. -/
theorem searchWithFallback_matches_spec_witness :
    Chat.searchWithFallback sfnBoundary rFinance 5 =
      Chat.searchWithFallbackSpec sfnBoundary rFinance :=
  searchWithFallback_matches_spec sfnBoundary rFinance rFinance
    (by with_unfolding_all rfl)

theorem rawSearch_pairwise (entries : Faiss.Entries) (q : Faiss.Vec) (k : Nat) :
    List.Pairwise Faiss.scoreGe (Faiss.rawSearch entries q k) :=
  List.Pairwise.sublist (List.take_sublist k _)
    (List.sorted_insertionSort Faiss.scoreGe (Faiss.scoreAll entries q))

theorem collectResults_length_le (store : List Faiss.ChunkRec)
    (fid : Option Int) (fcode : Option String) (raw : List (Int × ℚ))
    (topK : Nat) :
    (Faiss.collectResults store fid fcode raw topK).length ≤ topK :=
  List.length_take_le topK _

theorem collect_entry_snd (store : List Faiss.ChunkRec) (fid : Option Int)
    (fcode : Option String) (p : Int × ℚ) (x : Faiss.ChunkRec × ℚ)
    (hx : x ∈ (match Faiss.lookupChunk store p.1 with
        | some c =>
            if Faiss.matchesFilters fid fcode c then some (c, p.2) else none
        | none => none)) :
    x.2 = p.2 := by
  cases hl : Faiss.lookupChunk store p.1 with
  | none => simp only [hl] at hx; cases hx
  | some c =>
      simp only [hl] at hx
      by_cases hm : Faiss.matchesFilters fid fcode c
      · rw [if_pos hm] at hx
        cases hx
        rfl
      · rw [if_neg hm] at hx
        cases hx

theorem collectResults_pairwise (store : List Faiss.ChunkRec)
    (fid : Option Int) (fcode : Option String) (raw : List (Int × ℚ))
    (topK : Nat) (hraw : List.Pairwise Faiss.scoreGe raw) :
    List.Pairwise (fun a b : Faiss.ChunkRec × ℚ => b.2 ≤ a.2)
      (Faiss.collectResults store fid fcode raw topK) := by
  unfold Faiss.collectResults
  apply List.Pairwise.sublist (List.take_sublist topK _)
  rw [List.pairwise_filterMap]
  refine hraw.imp ?_
  intro a b hab x hx y hy
  rw [collect_entry_snd store fid fcode a x hx,
    collect_entry_snd store fid fcode b y hy]
  exact hab

theorem collectResults_mem (store : List Faiss.ChunkRec) (fid : Option Int)
    (fcode : Option String) (raw : List (Int × ℚ)) (topK : Nat)
    (x : Faiss.ChunkRec × ℚ)
    (hx : x ∈ Faiss.collectResults store fid fcode raw topK) :
    x.1 ∈ store ∧ Faiss.matchesFilters fid fcode x.1 = true := by
  unfold Faiss.collectResults at hx
  have hx2 := List.mem_of_mem_take hx
  obtain ⟨p, hp, hfp⟩ := List.mem_filterMap.mp hx2
  cases hl : Faiss.lookupChunk store p.1 with
  | none => simp only [hl] at hfp; exact Option.noConfusion hfp
  | some c =>
      simp only [hl] at hfp
      by_cases hm : Faiss.matchesFilters fid fcode c
      · rw [if_pos hm] at hfp
        cases hfp
        exact ⟨List.mem_of_find?_eq_some hl, hm⟩
      · rw [if_neg hm] at hfp
        cases hfp

theorem searchLoop_shape (entries : Faiss.Entries)
    (store : List Faiss.ChunkRec) (q : Faiss.Vec) (topK maxK : Nat)
    (fid : Option Int) (fcode : Option String) :
    ∀ n searchK, maxK + 1 - searchK ≤ n →
      Faiss.searchLoop entries store q topK maxK fid fcode searchK = [] ∨
      ∃ k, Faiss.searchLoop entries store q topK maxK fid fcode searchK =
        Faiss.collectResults store fid fcode (Faiss.rawSearch entries q k)
          topK := by
  intro n
  induction n with
  | zero =>
      intro searchK hle
      rw [Faiss.searchLoop]
      simp only []
      split_ifs with h1 h2 h3
      · exact Or.inl rfl
      · exact Or.inr ⟨searchK, rfl⟩
      · exact Or.inr ⟨searchK, rfl⟩
      · omega
  | succ n ih =>
      intro searchK hle
      rw [Faiss.searchLoop]
      simp only []
      split_ifs with h1 h2 h3
      · exact Or.inl rfl
      · exact Or.inr ⟨searchK, rfl⟩
      · exact Or.inr ⟨searchK, rfl⟩
      · apply ih
        have hk : searchK ≠ 0 := by
          intro h0
          apply h1
          simp [h0, Faiss.rawSearch]
        rcases Nat.le_total maxK (searchK * 2) with hm | hm <;>
          simp [Nat.min_def, hm] <;> omega

/-- C5: `search` returns at most `top_k` results ordered highest score
first; every returned chunk exists in the store and its owning document
satisfies the `department_id` / `department_code` filter when one is set;
and an index with zero vectors yields the empty list. -/
theorem faiss_search_invariants (entries : Faiss.Entries)
    (store : List Faiss.ChunkRec) (q : Faiss.Vec) (topK : Nat)
    (fid : Option Int) (fcode : Option String) :
    (Faiss.search entries store q topK fid fcode).length ≤ topK ∧
    List.Pairwise (fun a b : Faiss.ChunkRec × ℚ => b.2 ≤ a.2)
      (Faiss.search entries store q topK fid fcode) ∧
    (∀ x ∈ Faiss.search entries store q topK fid fcode,
      x.1 ∈ store ∧ Faiss.matchesFilters fid fcode x.1 = true) ∧
    (entries = [] → Faiss.search entries store q topK fid fcode = []) := by
  by_cases he : entries.length = 0
  · have hz : Faiss.search entries store q topK fid fcode = [] := by
      unfold Faiss.search
      rw [if_pos he]
    rw [hz]
    exact ⟨by simp, by simp, by simp, fun _ => rfl⟩
  · have hshape := searchLoop_shape entries store q topK
      (min entries.length (topK * 50)) fid fcode
      (min entries.length (topK * 50) + 1)
      (min (min entries.length (topK * 50)) (topK * 5)) (by omega)
    have hsearch : Faiss.search entries store q topK fid fcode =
        Faiss.searchLoop entries store q topK
          (min entries.length (topK * 50)) fid fcode
          (min (min entries.length (topK * 50)) (topK * 5)) := by
      unfold Faiss.search
      rw [if_neg he]
    rcases hshape with hres | ⟨k, hres⟩ <;> rw [hsearch, hres]
    · exact ⟨by simp, by simp, by simp,
        fun hcontra => by simp [hcontra] at he⟩
    · exact ⟨collectResults_length_le _ _ _ _ _,
        collectResults_pairwise _ _ _ _ _ (rawSearch_pairwise entries q k),
        fun x hx => collectResults_mem _ _ _ _ _ x hx,
        fun hcontra => by simp [hcontra] at he⟩

/-- C5 witness: searching an index with zero vectors returns the empty
list. -/
theorem faiss_search_invariants_witness :
    Faiss.search [] [] [1] 3 none none = [] :=
  (faiss_search_invariants [] [] [1] 3 none none).2.2.2 rfl

theorem rawSearch_eq_take (entries : Faiss.Entries) (q : Faiss.Vec)
    {k m : Nat} (hk : k ≤ m) :
    Faiss.rawSearch entries q k = (Faiss.rawSearch entries q m).take k := by
  unfold Faiss.rawSearch
  rw [List.take_take, Nat.min_eq_left hk]

theorem rawSearch_ne_nil (entries : Faiss.Entries) (q : Faiss.Vec)
    {k : Nat} (hne : entries ≠ []) (hk : 1 ≤ k) :
    Faiss.rawSearch entries q k ≠ [] := by
  have hlen : (Faiss.rawSearch entries q k).length =
      min k entries.length := by
    unfold Faiss.rawSearch
    rw [List.length_take, (List.perm_insertionSort _ _).length_eq]
    simp [Faiss.scoreAll]
  intro hcontra
  rw [hcontra] at hlen
  have : entries.length ≠ 0 :=
    fun h0 => hne (List.eq_nil_of_length_eq_zero h0)
  simp at hlen
  omega

theorem filtered_len_mono (store : List Faiss.ChunkRec) (fid : Option Int)
    (fcode : Option String) (entries : Faiss.Entries) (q : Faiss.Vec)
    {k m : Nat} (hk : k ≤ m) :
    ((Faiss.rawSearch entries q k).filterMap (fun p =>
        match Faiss.lookupChunk store p.1 with
        | some c =>
            if Faiss.matchesFilters fid fcode c then some (c, p.2) else none
        | none => none)).length ≤
    ((Faiss.rawSearch entries q m).filterMap (fun p =>
        match Faiss.lookupChunk store p.1 with
        | some c =>
            if Faiss.matchesFilters fid fcode c then some (c, p.2) else none
        | none => none)).length := by
  apply List.Sublist.length_le
  apply List.Sublist.filterMap
  rw [rawSearch_eq_take entries q hk]
  exact List.take_sublist k _

theorem searchLoop_exhausts (entries : Faiss.Entries)
    (store : List Faiss.ChunkRec) (q : Faiss.Vec) (topK maxK : Nat)
    (fid : Option Int) (fcode : Option String) (hne : entries ≠ []) :
    ∀ n searchK, maxK + 1 - searchK ≤ n → 1 ≤ searchK → searchK ≤ maxK →
      (Faiss.collectResults store fid fcode (Faiss.rawSearch entries q maxK)
        topK).length < topK →
      Faiss.searchLoop entries store q topK maxK fid fcode searchK =
        Faiss.collectResults store fid fcode (Faiss.rawSearch entries q maxK)
          topK := by
  intro n
  induction n with
  | zero => intro searchK hle hs1 hsm hcm; omega
  | succ n ih =>
      intro searchK hle hs1 hsm hcm
      have hlenle : (Faiss.collectResults store fid fcode
          (Faiss.rawSearch entries q searchK) topK).length < topK := by
        unfold Faiss.collectResults at hcm ⊢
        rw [List.length_take] at hcm ⊢
        have := filtered_len_mono store fid fcode entries q hsm
        omega
      rw [Faiss.searchLoop]
      simp only []
      split_ifs with h1 h2 h3
      · exact absurd h1 (rawSearch_ne_nil entries q hne hs1)
      · omega
      · rw [le_antisymm hsm h3]
      · apply ih
        · omega
        · omega
        · omega
        · exact hcm

/-- C6: the scoped search loop issues its first raw query with
`search_k = min(ntotal, top_k · 5)` (the source's
`min(min(ntotal, top_k · 50), top_k · 5)` coincides with it); whenever
fewer than `top_k` candidates survive the filter and `search_k` has not
reached `max_k = min(ntotal, top_k · 50)`, `search_k` is doubled capped at
`max_k` and the query re-issued; the loop stops as soon as `top_k` results
are collected; and when even the full `max_k` expansion yields fewer than
`top_k` passing candidates, the search returns exactly those passing
candidates. -/
theorem faiss_search_expansion (entries : Faiss.Entries)
    (store : List Faiss.ChunkRec) (q : Faiss.Vec) (topK : Nat)
    (fid : Option Int) (fcode : Option String)
    (hne : entries ≠ []) (htk : 1 ≤ topK) :
    (Faiss.search entries store q topK fid fcode =
      Faiss.searchLoop entries store q topK (min entries.length (topK * 50))
        fid fcode (min entries.length (topK * 5))) ∧
    (∀ searchK,
      Faiss.rawSearch entries q searchK ≠ [] →
      (Faiss.collectResults store fid fcode
        (Faiss.rawSearch entries q searchK) topK).length < topK →
      searchK < min entries.length (topK * 50) →
      Faiss.searchLoop entries store q topK (min entries.length (topK * 50))
          fid fcode searchK =
        Faiss.searchLoop entries store q topK (min entries.length (topK * 50))
          fid fcode (min (min entries.length (topK * 50)) (searchK * 2))) ∧
    (∀ searchK,
      Faiss.rawSearch entries q searchK ≠ [] →
      topK ≤ (Faiss.collectResults store fid fcode
        (Faiss.rawSearch entries q searchK) topK).length →
      Faiss.searchLoop entries store q topK (min entries.length (topK * 50))
          fid fcode searchK =
        Faiss.collectResults store fid fcode
          (Faiss.rawSearch entries q searchK) topK) ∧
    ((Faiss.collectResults store fid fcode
        (Faiss.rawSearch entries q (min entries.length (topK * 50)))
        topK).length < topK →
      Faiss.search entries store q topK fid fcode =
        Faiss.collectResults store fid fcode
          (Faiss.rawSearch entries q (min entries.length (topK * 50)))
          topK) := by
  have hlen0 : ¬ entries.length = 0 :=
    fun h0 => hne (List.eq_nil_of_length_eq_zero h0)
  have hmin : min (min entries.length (topK * 50)) (topK * 5) =
      min entries.length (topK * 5) := by omega
  have ha : Faiss.search entries store q topK fid fcode =
      Faiss.searchLoop entries store q topK (min entries.length (topK * 50))
        fid fcode (min entries.length (topK * 5)) := by
    unfold Faiss.search
    rw [if_neg hlen0]
    simp only []
    rw [hmin]
  refine ⟨ha, ?_, ?_, ?_⟩
  · intro searchK hraw hlen hlt
    rw [Faiss.searchLoop]
    simp only []
    split_ifs with h1 h2 h3
    · exact absurd h1 hraw
    · omega
    · omega
    · rfl
  · intro searchK hraw hlen
    rw [Faiss.searchLoop]
    simp only []
    split_ifs with h1
    · exact absurd h1 hraw
    · rfl
  · intro hcm
    rw [ha]
    apply searchLoop_exhausts entries store q topK
      (min entries.length (topK * 50)) fid fcode hne
      (min entries.length (topK * 50) + 1)
    · omega
    · omega
    · omega
    · exact hcm

/-- C6 witness: a two-vector index searched with `top_k = 1` under a
department-code filter that nothing satisfies expands to `max_k` and
returns the (empty) passing set. -/
theorem faiss_search_expansion_witness :
    Faiss.search wEnts wStore [1] 1 none (some "zz") =
      Faiss.collectResults wStore none (some "zz")
        (Faiss.rawSearch wEnts [1] (min wEnts.length (1 * 50))) 1 :=
  (faiss_search_expansion wEnts wStore [1] 1 none (some "zz")
    (by decide) (by decide)).2.2.2 (by with_unfolding_all decide)

/-- C1: the claim fails on the code. `RAGChatService.chat` never consults
`needs_clarification`: with a decision that asks for clarification (and
`is_business = true`) the method still embeds the query and runs the
scoped search and — here, against an empty backend — returns the canned
weak-retrieval message with `meta.reason = "search_weak"` instead of the
decision's clarifying question.  The repository's own test
`chat/tests.py::RAGChatBranchingTests.test_needs_clarification_short_circuits`
expects the claimed short-circuit, so the code contradicts its tests. -/
theorem chat_needs_clarification_not_short_circuited :
    rClarify.needs_clarification = true ∧
    (Chat.chat rClarify [] sfnEmpty (fun _ => "llm-answer")
      "休暇について教えて").reason = some "search_weak" ∧
    (Chat.chat rClarify [] sfnEmpty (fun _ => "llm-answer")
      "休暇について教えて").answer ≠ rClarify.clarifying_question ∧
    (Chat.chat rClarify [] sfnEmpty (fun _ => "llm-answer")
      "休暇について教えて").effects.embed_called = true ∧
    (Chat.chat rClarify [] sfnEmpty (fun _ => "llm-answer")
      "休暇について教えて").effects.search_called = true := by
  refine ⟨rfl, ?_, ?_, ?_, ?_⟩ <;> with_unfolding_all decide

/-- C7 witness: the API-failure outcome with one known code. -/
theorem route_failure_safe_default_witness :
    (Routing.route .apiError ["hr"]).is_business = true ∧
    (Routing.route .apiError ["hr"]).primary_department = "unknown" ∧
    (Routing.route .apiError ["hr"]).needs_clarification = true ∧
    (Routing.route .apiError ["hr"]).clarifying_question ≠ "" :=
  route_failure_safe_default .apiError ["hr"] (Or.inr rfl)
